import Mathlib

/-!
Shallow embedding of the Mersenne Twister generator from `src/src/lib.rs`
(struct `Random` with `from_seed`, `seed_mt`, `next`, `twist`).

Machine integers (Rust `u32` / `u64`) are modelled as `ℕ`; truncating casts
(`as u32`) become `% 2 ^ 32`.  The 624-word state array is a `List ℕ`;
the in-place loops of `seed_mt` and `twist` become `List.foldl` over the
exact index ranges of the Rust `for` loops (`1..(N-1)` and `0..(N-1)`,
both exclusive of the upper bound, so indices 1..622 and 0..622).
-/

set_option maxRecDepth 4000

namespace MT

/-- word size (in number of bits). -/
def W : ℕ := 32
/-- degree of recurrence. -/
def N : ℕ := 624
/-- middle word offset. -/
def M : ℕ := 397
/-- separation point of one word. -/
def R : ℕ := 31
/-- coefficients of the rational normal form twist matrix. -/
def A : ℕ := 0x9908B0DF
/-- tempering bitmask b. -/
def B : ℕ := 0x9D2C5680
/-- tempering bitmask c. -/
def C : ℕ := 0xEFC60000
/-- tempering bit shift s. -/
def S : ℕ := 7
/-- tempering bit shift t. -/
def T : ℕ := 15
/-- tempering bit shift u. -/
def U : ℕ := 11
/-- tempering mask d. -/
def D : ℕ := 0xFFFFFFFF
/-- tempering bit shift l. -/
def L : ℕ := 18
/-- seeding multiplier constant. -/
def F : ℕ := 1812433253
/-- default seed used by `Random::new`. -/
def DEFAULT_SEED : ℕ := 5489

/-- The `Random` struct: 624-word state, cursor, and the two derived masks. -/
structure Random where
  mt : List ℕ
  index : ℕ
  lower_mask : ℕ
  upper_mask : ℕ
deriving DecidableEq, Repr

/-- One iteration of the seeding fill loop body:
`(F as u64 * (previous ^ (previous >> 30))) + i as u64`, truncated `as u32`. -/
def seedStep (previous i : ℕ) : ℕ :=
  (F * (previous ^^^ (previous >>> (W - 2))) + i) % 2 ^ 32

/-- `Random::seed_mt`: sets `index = N`, `mt[0] = seed`, then fills
`mt[i]` for `i in 1..(N-1)`, i.e. indices 1 through 622 inclusive. -/
def seed_mt (r : Random) (seed : ℕ) : Random :=
  let mt0 := r.mt.set 0 seed
  let mt1 := (List.range' 1 (N - 2)).foldl
    (fun mt i => mt.set i (seedStep (mt.getD (i - 1) 0) i)) mt0
  { r with mt := mt1, index := N }

/-- `Random::from_seed`: builds the zeroed struct with the two masks
(`lower_mask = (1 << R) - 1`, `upper_mask = !lower_mask` on `u32`)
then calls `seed_mt`. -/
def from_seed (seed : ℕ) : Random :=
  let lower_mask := (1 <<< R) - 1
  let r : Random :=
    { mt := List.replicate N 0
      index := N + 1
      lower_mask := lower_mask
      upper_mask := 0xFFFFFFFF ^^^ lower_mask }
  seed_mt r seed

/-- `Random::new`: construction with the default seed. -/
def new : Random := from_seed DEFAULT_SEED

/-- Body of the twist loop at position `i`, given the current (partially
rewritten) state list and the two masks. -/
def twistStep (lower_mask upper_mask : ℕ) (mt : List ℕ) (i : ℕ) : ℕ :=
  let x := (mt.getD i 0 &&& upper_mask) + (mt.getD ((i + 1) % N) 0 &&& lower_mask)
  let x_a := x >>> 1
  let x_a := if x % 2 ≠ 0 then x_a ^^^ A else x_a
  mt.getD ((i + M) % N) 0 ^^^ x_a

/-- `Random::twist`: sequentially rewrites `mt[i]` for `i in 0..(N-1)`,
i.e. indices 0 through 622 inclusive, then resets `index` to 0. -/
def twist (r : Random) : Random :=
  let mt1 := (List.range (N - 1)).foldl
    (fun mt i => mt.set i (twistStep r.lower_mask r.upper_mask mt i)) r.mt
  { r with mt := mt1, index := 0 }

/-- The tempering transform applied to a raw state word by `Random::next`.
Rust `y << S` on `u32` truncates to 32 bits, but every `&` mask here is
below `2 ^ 32`, so the untruncated `ℕ` shift gives the same result. -/
def temper (y : ℕ) : ℕ :=
  let y1 := y ^^^ ((y >>> U) &&& D)
  let y2 := y1 ^^^ ((y1 <<< S) &&& B)
  let y3 := y2 ^^^ ((y2 <<< T) &&& C)
  y3 ^^^ (y3 >>> L)

/-- The conditional twist at the top of `Random::next`:
`if self.index >= N as usize { self.twist(); }`. -/
def pre (r : Random) : Random :=
  if r.index ≥ N then twist r else r

/-- `Random::next`: conditional twist, read `mt[index]`, temper,
increment `index`, return the tempered word together with the new state. -/
def next (r : Random) : ℕ × Random :=
  let r1 := pre r
  (temper (r1.mt.getD r1.index 0), { r1 with index := r1.index + 1 })

/-- The index at which `next` reads the state array
(the value of `self.index` at the `self.mt[self.index]` access). -/
def readIndex (r : Random) : ℕ := (pre r).index

/-- State after `n` calls to `next` starting from `r`. -/
def iterate (r : Random) : ℕ → Random
  | 0 => r
  | n + 1 => (next (iterate r n)).2

/-- The value returned by call number `n` (1-based) to `next`
on a generator freshly seeded with `seed`. -/
def callOutput (seed n : ℕ) : ℕ :=
  (next (iterate (from_seed seed) (n - 1))).1

/-- The list of the first `n` outputs of generator `r` (in order). -/
def outputs (r : Random) : ℕ → List ℕ
  | 0 => []
  | n + 1 => outputs r n ++ [(next (iterate r n)).1]

/-- One `next` call instrumented with a twist counter: the counter is
incremented exactly when the call enters the `self.index >= N` branch. -/
def stepC (p : Random × ℕ) : Random × ℕ :=
  ((next p.1).2, p.2 + if p.1.index ≥ N then 1 else 0)

/-- `n` twist-counting calls to `next` on a generator freshly seeded
with `seed`, starting the counter at 0. -/
def iterC (seed : ℕ) : ℕ → Random × ℕ
  | 0 => (from_seed seed, 0)
  | n + 1 => stepC (iterC seed n)

/-- Twist as the spec's §4.2 algorithm states it: the same sequential
per-position update as `twist`, but over every position `i` from 0 to 623
inclusive (`List.range N`), then `index` reset to 0. -/
def twistSpec (r : Random) : Random :=
  let mt1 := (List.range N).foldl
    (fun mt i => mt.set i (twistStep r.lower_mask r.upper_mask mt i)) r.mt
  { r with mt := mt1, index := 0 }

/-- The mathematical seeding recurrence: `mtSeq s i` is the value the fill
loop stores at position `i` (with `mtSeq s 0 = s`). -/
def mtSeq (s : ℕ) : ℕ → ℕ
  | 0 => s
  | i + 1 => seedStep (mtSeq s i) (i + 1)

/-- The state list after the first `k` iterations of the twist loop of
`r` (the same sequential fold as `twist`, stopped after positions
`0 .. k-1`). -/
def partialTwist (r : Random) (k : ℕ) : List ℕ :=
  (List.range k).foldl
    (fun mt i => mt.set i (twistStep r.lower_mask r.upper_mask mt i)) r.mt

/-- A concrete generator state used to instantiate frame lemmas. -/
def sampleRandom : Random :=
  { mt := List.replicate 624 0, index := 5,
    lower_mask := 0x7FFFFFFF, upper_mask := 0x80000000 }

/-! ### Generic lemmas about the loop embeddings -/

theorem getD_set_ne (l : List ℕ) (i j v : ℕ) (h : i ≠ j) :
    (l.set i v).getD j 0 = l.getD j 0 := by
  simp [List.getD_eq_getElem?_getD, List.getElem?_set_ne h]

theorem getD_set_self (l : List ℕ) (i v : ℕ) (h : i < l.length) :
    (l.set i v).getD i 0 = v := by
  simp [List.getD_eq_getElem?_getD, List.getElem?_set_self h]

theorem foldl_set_length (idxs : List ℕ) (f : List ℕ → ℕ → ℕ) (mt : List ℕ) :
    (idxs.foldl (fun m i => m.set i (f m i)) mt).length = mt.length := by
  induction idxs generalizing mt with
  | nil => rfl
  | cons a as ih => rw [List.foldl_cons, ih, List.length_set]

theorem foldl_set_getD_of_ne (idxs : List ℕ) (f : List ℕ → ℕ → ℕ)
    (mt : List ℕ) (j : ℕ) (h : ∀ i ∈ idxs, i ≠ j) :
    (idxs.foldl (fun m i => m.set i (f m i)) mt).getD j 0 = mt.getD j 0 := by
  induction idxs generalizing mt with
  | nil => rfl
  | cons a as ih =>
    rw [List.foldl_cons, ih _ (fun i hi => h i (List.mem_cons_of_mem a hi)),
      getD_set_ne _ _ _ _ (h a (List.mem_cons_self a as))]

/-! ### Structure of `from_seed`, `twist` and `next` -/

theorem from_seed_index (s : ℕ) : (from_seed s).index = 624 := by
  simp only [from_seed, seed_mt]
  rfl

theorem from_seed_masks (s : ℕ) :
    (from_seed s).lower_mask = 0x7FFFFFFF ∧ (from_seed s).upper_mask = 0x80000000 := by
  simp only [from_seed, seed_mt]
  constructor <;> rfl

theorem from_seed_mt_length (s : ℕ) : (from_seed s).mt.length = 624 := by
  simp only [from_seed, seed_mt]
  rw [foldl_set_length, List.length_set, List.length_replicate]
  rfl

theorem from_seed_mt_getD_623 (s : ℕ) : (from_seed s).mt.getD 623 0 = 0 := by
  have h1 : ∀ i ∈ List.range' 1 (N - 2), i ≠ 623 := by
    intro i hi
    rw [List.mem_range'] at hi
    obtain ⟨k, hk, rfl⟩ := hi
    have hN : N = 624 := rfl
    omega
  simp only [from_seed, seed_mt]
  rw [foldl_set_getD_of_ne _ _ _ _ h1, getD_set_ne _ _ _ _ (by omega),
    List.getD_eq_getElem?_getD, List.getElem?_replicate]
  rfl

theorem twist_mt_length (r : Random) : (twist r).mt.length = r.mt.length := by
  simp only [twist]
  rw [foldl_set_length]

theorem twist_mt_getD_623 (r : Random) : (twist r).mt.getD 623 0 = r.mt.getD 623 0 := by
  simp only [twist]
  rw [foldl_set_getD_of_ne]
  intro i hi
  rw [List.mem_range] at hi
  have hN : N = 624 := rfl
  omega

theorem twist_index (r : Random) : (twist r).index = 0 := by
  simp only [twist]

theorem twist_masks (r : Random) :
    (twist r).lower_mask = r.lower_mask ∧ (twist r).upper_mask = r.upper_mask := by
  simp only [twist]
  exact ⟨trivial, trivial⟩

theorem pre_of_lt (r : Random) (h : r.index < 624) : pre r = r := by
  have hN : N = 624 := rfl
  simp only [pre]
  rw [if_neg (by omega)]

theorem pre_of_ge (r : Random) (h : r.index ≥ 624) : pre r = twist r := by
  have hN : N = 624 := rfl
  simp only [pre]
  rw [if_pos (by omega)]

theorem pre_index_lt (r : Random) : (pre r).index < 624 := by
  by_cases h : r.index ≥ 624
  · rw [pre_of_ge r h, twist_index]; omega
  · rw [pre_of_lt r (by omega)]; omega

theorem pre_mt_length (r : Random) : (pre r).mt.length = r.mt.length := by
  by_cases h : r.index ≥ 624
  · rw [pre_of_ge r h, twist_mt_length]
  · rw [pre_of_lt r (by omega)]

theorem pre_mt_getD_623 (r : Random) : (pre r).mt.getD 623 0 = r.mt.getD 623 0 := by
  by_cases h : r.index ≥ 624
  · rw [pre_of_ge r h, twist_mt_getD_623]
  · rw [pre_of_lt r (by omega)]

theorem next_fst (r : Random) :
    (next r).1 = temper ((pre r).mt.getD (pre r).index 0) := by
  simp only [next]

theorem next_snd_mt (r : Random) : (next r).2.mt = (pre r).mt := by
  simp only [next]

theorem next_snd_masks (r : Random) :
    (next r).2.lower_mask = r.lower_mask ∧ (next r).2.upper_mask = r.upper_mask := by
  simp only [next]
  by_cases h : r.index ≥ 624
  · rw [pre_of_ge r h]
    exact twist_masks r
  · rw [pre_of_lt r (by omega)]
    exact ⟨rfl, rfl⟩

theorem next_snd_index (r : Random) :
    (next r).2.index = if r.index ≥ 624 then 1 else r.index + 1 := by
  have h1 : (next r).2.index = (pre r).index + 1 := by
    simp only [next]
  rw [h1]
  by_cases h : r.index ≥ 624
  · rw [pre_of_ge r h, twist_index, if_pos h]
  · rw [pre_of_lt r (by omega), if_neg h]

theorem temper_zero : temper 0 = 0 := rfl

theorem readIndex_eq (r : Random) : readIndex r = (pre r).index := rfl

theorem iterate_zero (r : Random) : iterate r 0 = r := rfl

theorem iterate_succ (r : Random) (n : ℕ) :
    iterate r (n + 1) = (next (iterate r n)).2 := rfl

theorem next_snd_mt_getD_623 (r : Random) :
    (next r).2.mt.getD 623 0 = r.mt.getD 623 0 := by
  rw [next_snd_mt, pre_mt_getD_623]

theorem next_snd_mt_length (r : Random) : (next r).2.mt.length = r.mt.length := by
  rw [next_snd_mt, pre_mt_length]

theorem iterate_mt_getD_623 (s n : ℕ) :
    (iterate (from_seed s) n).mt.getD 623 0 = 0 := by
  induction n with
  | zero => exact from_seed_mt_getD_623 s
  | succ n ih => rw [iterate_succ, next_snd_mt_getD_623, ih]

theorem iterate_mt_length (s n : ℕ) :
    (iterate (from_seed s) n).mt.length = 624 := by
  induction n with
  | zero => exact from_seed_mt_length s
  | succ n ih => rw [iterate_succ, next_snd_mt_length, ih]

theorem iterate_index (s n : ℕ) :
    (iterate (from_seed s) (n + 1)).index = n % 624 + 1 := by
  induction n with
  | zero =>
    rw [iterate_succ, iterate_zero, next_snd_index, from_seed_index,
      if_pos (by omega)]
  | succ n ih =>
    rw [iterate_succ, next_snd_index, ih]
    by_cases h : n % 624 = 623
    · rw [if_pos (by omega)]
      omega
    · rw [if_neg (by omega)]
      omega

/-! ### Characterization of the seeding fill loop -/

theorem fill_invariant (s : ℕ) : ∀ k, k ≤ 622 →
    (∀ j, j ≤ k → ((List.range' 1 k).foldl
        (fun mt i => mt.set i (seedStep (mt.getD (i - 1) 0) i))
        ((List.replicate N 0).set 0 s)).getD j 0 = mtSeq s j) ∧
    (∀ j, k < j → ((List.range' 1 k).foldl
        (fun mt i => mt.set i (seedStep (mt.getD (i - 1) 0) i))
        ((List.replicate N 0).set 0 s)).getD j 0
        = ((List.replicate N 0).set 0 s).getD j 0) := by
  have hlen : ∀ k, (((List.range' 1 k).foldl
      (fun mt i => mt.set i (seedStep (mt.getD (i - 1) 0) i))
      ((List.replicate N 0).set 0 s))).length = 624 := by
    intro k
    rw [foldl_set_length, List.length_set, List.length_replicate]
    rfl
  intro k
  induction k with
  | zero =>
    intro _
    constructor
    · intro j hj
      have hj0 : j = 0 := by omega
      subst hj0
      rw [List.range'_zero, List.foldl_nil, getD_set_self]
      · rfl
      · rw [List.length_replicate]
        have hN : N = 624 := rfl
        omega
    · intro j _
      rw [List.range'_zero, List.foldl_nil]
  | succ k ih =>
    intro hk
    have ihk := ih (by omega)
    have hconcat : List.range' 1 (k + 1) = List.range' 1 k ++ [1 + 1 * k] :=
      List.range'_concat 1 k
    have hval : 1 + 1 * k = k + 1 := by omega
    rw [hconcat, hval, List.foldl_append, List.foldl_cons, List.foldl_nil]
    have hread : ((List.range' 1 k).foldl
        (fun mt i => mt.set i (seedStep (mt.getD (i - 1) 0) i))
        ((List.replicate N 0).set 0 s)).getD (k + 1 - 1) 0 = mtSeq s k := by
      have h1 : k + 1 - 1 = k := by omega
      rw [h1]
      exact ihk.1 k le_rfl
    rw [hread]
    constructor
    · intro j hj
      by_cases hjk : j = k + 1
      · subst hjk
        rw [getD_set_self]
        · rfl
        · rw [hlen]
          omega
      · rw [getD_set_ne _ _ _ _ (by omega)]
        exact ihk.1 j (by omega)
    · intro j hj
      rw [getD_set_ne _ _ _ _ (by omega)]
      exact ihk.2 j (by omega)

theorem from_seed_mt_getD (s j : ℕ) (hj : j ≤ 622) :
    (from_seed s).mt.getD j 0 = mtSeq s j := by
  simp only [from_seed, seed_mt]
  have hN2 : N - 2 = 622 := rfl
  rw [hN2]
  exact (fill_invariant s 622 le_rfl).1 j hj

/-! ### The twist-counting iteration -/

theorem iterC_zero (s : ℕ) : iterC s 0 = (from_seed s, 0) := rfl

theorem iterC_succ (s n : ℕ) : iterC s (n + 1) = stepC (iterC s n) := rfl

theorem stepC_fst_index (p : Random × ℕ) :
    (stepC p).1.index = if p.1.index ≥ 624 then 1 else p.1.index + 1 := by
  simp only [stepC]
  rw [next_snd_index]

theorem stepC_snd (p : Random × ℕ) :
    (stepC p).2 = p.2 + if p.1.index ≥ 624 then 1 else 0 := by
  simp only [stepC]
  have hN : N = 624 := rfl
  rw [hN]

theorem iterC_zero_fst (s : ℕ) : (iterC s 0).1 = from_seed s := rfl

theorem iterC_zero_snd (s : ℕ) : (iterC s 0).2 = 0 := rfl

theorem iterC_one (s : ℕ) :
    (iterC s (0 + 1)).1.index = 0 + 1 ∧ (iterC s (0 + 1)).2 = 1 := by
  constructor
  · rw [iterC_succ, stepC_fst_index, iterC_zero_fst, from_seed_index,
      if_pos (by omega)]
  · rw [iterC_succ, stepC_snd, iterC_zero_snd, iterC_zero_fst, from_seed_index,
      if_pos (by omega)]

theorem iterC_invariant (s : ℕ) : ∀ n, 1 ≤ n → n ≤ 624 →
    (iterC s n).1.index = n ∧ (iterC s n).2 = 1 := by
  intro n
  induction n with
  | zero =>
    intro h
    exact absurd h (by omega)
  | succ n ih =>
    intro _ hn
    by_cases hn0 : n = 0
    · subst hn0
      exact iterC_one s
    · obtain ⟨ih1, ih2⟩ := ih (by omega) (by omega)
      constructor
      · rw [iterC_succ, stepC_fst_index, ih1, if_neg (by omega)]
      · rw [iterC_succ, stepC_snd, ih2, ih1, if_neg (by omega)]

/-! ### The partially evaluated twist loop -/

theorem partialTwist_zero (r : Random) : partialTwist r 0 = r.mt := rfl

theorem partialTwist_length (r : Random) (k : ℕ) :
    (partialTwist r k).length = r.mt.length := by
  simp only [partialTwist]
  rw [foldl_set_length]

theorem partialTwist_succ (r : Random) (k : ℕ) :
    partialTwist r (k + 1) = (partialTwist r k).set k
      (twistStep r.lower_mask r.upper_mask (partialTwist r k) k) := by
  simp only [partialTwist]
  rw [List.range_succ, List.foldl_append, List.foldl_cons, List.foldl_nil]

theorem partialTwist_getD_high (r : Random) (k j : ℕ) (hkj : k ≤ j) :
    (partialTwist r k).getD j 0 = r.mt.getD j 0 := by
  simp only [partialTwist]
  apply foldl_set_getD_of_ne
  intro i hi
  rw [List.mem_range] at hi
  omega

theorem partialTwist_getD_written (r : Random) (j : ℕ) (hj : j < r.mt.length) :
    (partialTwist r (j + 1)).getD j 0 =
      twistStep r.lower_mask r.upper_mask (partialTwist r j) j := by
  rw [partialTwist_succ, getD_set_self]
  rw [partialTwist_length]
  exact hj

theorem partialTwist_getD_stable (r : Random) (k j : ℕ) (hjk : j < k) :
    (partialTwist r k).getD j 0 = (partialTwist r (j + 1)).getD j 0 := by
  induction k with
  | zero => omega
  | succ k ih =>
    by_cases h : j = k
    · subst h
      rfl
    · rw [partialTwist_succ, getD_set_ne _ _ _ _ (by omega)]
      exact ih (by omega)

theorem twist_mt_eq_partialTwist (r : Random) : (twist r).mt = partialTwist r 623 := by
  simp only [twist, partialTwist]
  have h1 : N - 1 = 623 := rfl
  rw [h1]

theorem twistSpec_mt_eq_partialTwist (r : Random) :
    (twistSpec r).mt = partialTwist r 624 := by
  simp only [twistSpec, partialTwist]
  have h1 : N = 624 := rfl
  rw [h1]

theorem twist_mt_getD_lt (r : Random) (j : ℕ) (hj : j < 623)
    (hlen : j < r.mt.length) :
    (twist r).mt.getD j 0 =
      twistStep r.lower_mask r.upper_mask (partialTwist r j) j := by
  rw [twist_mt_eq_partialTwist, partialTwist_getD_stable r 623 j hj,
    partialTwist_getD_written r j hlen]

theorem twistStep_eq (l u : ℕ) (mt : List ℕ) (i : ℕ) :
    twistStep l u mt i =
      mt.getD ((i + M) % N) 0 ^^^
        (if ((mt.getD i 0 &&& u) + (mt.getD ((i + 1) % N) 0 &&& l)) % 2 ≠ 0
         then (((mt.getD i 0 &&& u) + (mt.getD ((i + 1) % N) 0 &&& l)) >>> 1) ^^^ A
         else ((mt.getD i 0 &&& u) + (mt.getD ((i + 1) % N) 0 &&& l)) >>> 1) := rfl

/-! ### Claim theorems -/

/-- C1: for the generator constructed from seed 32, the first call to
`next()` returns exactly 3688901335. -/
theorem first_output_seed_32 : (next (from_seed 32)).1 = 3688901335 := by
  rw [next_fst, pre_of_ge _ (from_seed_index 32).ge, twist_index,
    twist_mt_getD_lt _ 0 (by omega) (by rw [from_seed_mt_length]; omega),
    partialTwist_zero]
  rw [twistStep_eq]
  rw [(show (0 + 1) % N = 1 from rfl), (show (0 + M) % N = 397 from rfl),
    from_seed_mt_getD 32 0 (by omega), from_seed_mt_getD 32 1 (by omega),
    from_seed_mt_getD 32 397 (by omega),
    (from_seed_masks 32).1, (from_seed_masks 32).2]
  decide!

/-- C2 (code bug evidence): the claim says `twist` writes every position
`i` from 0 to 623; the code's loop is `0..(N-1)` and stops at 622.  On the
generator seeded with 32, the code's `twist` leaves `state[623]` at 0,
while the spec's sequential algorithm over all 624 positions (`twistSpec`)
would set `state[623] = 3049100189`. -/
theorem twist_omits_last_position :
    (twist (from_seed 32)).mt.getD 623 0 = 0 ∧
    (twistSpec (from_seed 32)).mt.getD 623 0 = 3049100189 := by
  have hlen : ∀ j : ℕ, j < 624 → j < (from_seed 32).mt.length := by
    intro j hj
    rw [from_seed_mt_length]
    omega
  constructor
  · rw [twist_mt_getD_623, from_seed_mt_getD_623]
  · rw [twistSpec_mt_eq_partialTwist, (show (624 : ℕ) = 623 + 1 by norm_num),
      partialTwist_getD_written _ 623 (hlen 623 (by omega))]
    rw [twistStep_eq]
    rw [(show (623 + 1) % N = 0 from rfl), (show (623 + M) % N = 396 from rfl),
      partialTwist_getD_high _ 623 623 le_rfl,
      partialTwist_getD_stable _ 623 0 (by omega),
      partialTwist_getD_stable _ 623 396 (by omega),
      partialTwist_getD_written _ 0 (hlen 0 (by omega)),
      partialTwist_getD_written _ 396 (hlen 396 (by omega)),
      partialTwist_zero]
    rw [twistStep_eq, twistStep_eq]
    rw [(show (0 + 1) % N = 1 from rfl), (show (0 + M) % N = 397 from rfl),
      (show (396 + 1) % N = 397 from rfl), (show (396 + M) % N = 169 from rfl),
      partialTwist_getD_high _ 396 396 le_rfl,
      partialTwist_getD_high _ 396 397 (by omega),
      partialTwist_getD_stable _ 396 169 (by omega),
      partialTwist_getD_written _ 169 (hlen 169 (by omega))]
    rw [twistStep_eq]
    rw [(show (169 + 1) % N = 170 from rfl), (show (169 + M) % N = 566 from rfl),
      partialTwist_getD_high _ 169 169 le_rfl,
      partialTwist_getD_high _ 169 170 (by omega),
      partialTwist_getD_high _ 169 566 (by omega),
      from_seed_mt_getD_623,
      from_seed_mt_getD 32 0 (by omega), from_seed_mt_getD 32 1 (by omega),
      from_seed_mt_getD 32 397 (by omega), from_seed_mt_getD 32 396 (by omega),
      from_seed_mt_getD 32 169 (by omega), from_seed_mt_getD 32 170 (by omega),
      from_seed_mt_getD 32 566 (by omega),
      (from_seed_masks 32).1, (from_seed_masks 32).2]
    decide!

/-- C3 (code bug evidence): the claim says seeding gives `state[623]` a
recurrence-derived value; the code's fill loop is `1..(N-1)` and stops at
622, so `state[623]` keeps its zero default, while the recurrence applied
at index 623 would produce 2048298010. -/
theorem seeding_omits_last_index :
    (from_seed 32).mt.getD 623 0 = 0 ∧
    seedStep ((from_seed 32).mt.getD 622 0) 623 = 2048298010 := by
  constructor
  · exact from_seed_mt_getD_623 32
  · rw [from_seed_mt_getD 32 622 (by omega)]
    decide!

/-- C4: for all seeds `s`, two independently constructed generators seeded
with `s` produce identical output sequences for any number `n` of `next()`
calls. -/
theorem determinism (s n : ℕ) (g1 g2 : Random)
    (h1 : g1 = from_seed s) (h2 : g2 = from_seed s) :
    outputs g1 n = outputs g2 n := by
  rw [h1, h2]

theorem determinism_witness :
    from_seed 32 = from_seed 32 ∧
    outputs (from_seed 32) 3 = outputs (from_seed 32) 3 :=
  ⟨rfl, determinism 32 3 (from_seed 32) (from_seed 32) rfl rfl⟩

/-- C5: for a freshly seeded generator (any seed), the twist counter is 1
already after the first call, `index` is 624 and exactly one twist has
occurred after the 624th call, and the 625th call triggers the second
twist leaving `index` equal to 1. -/
theorem twist_boundary (s : ℕ) :
    (iterC s 1).2 = 1 ∧
    (iterC s 624).1.index = 624 ∧ (iterC s 624).2 = 1 ∧
    (iterC s 625).1.index = 1 ∧ (iterC s 625).2 = 2 := by
  have h1 := iterC_invariant s 1 (by omega) (by omega)
  have h624 := iterC_invariant s 624 (by omega) (by omega)
  have h625 : (625 : ℕ) = 624 + 1 := by norm_num
  refine ⟨h1.2, h624.1, h624.2, ?_, ?_⟩
  · rw [h625, iterC_succ, stepC_fst_index, h624.1, if_pos (by omega)]
  · rw [h625, iterC_succ, stepC_snd, h624.2, h624.1, if_pos (by omega)]

/-- C6: seeding with a 32-bit seed sets `state[0] = seed`, fills
`state[i] = (1812433253 * (state[i-1] XOR (state[i-1] >> 30)) + i) mod 2^32`
for `i = 1` to `622` inclusive, and leaves `index` equal to 624. -/
theorem seeding_recurrence (s i : ℕ) (_hs : s < 2 ^ 32)
    (h1 : 1 ≤ i) (h2 : i ≤ 622) :
    (from_seed s).mt.getD 0 0 = s ∧
    (from_seed s).mt.getD i 0 =
      (1812433253 * ((from_seed s).mt.getD (i - 1) 0 ^^^
        ((from_seed s).mt.getD (i - 1) 0 >>> 30)) + i) % 2 ^ 32 ∧
    (from_seed s).index = 624 := by
  refine ⟨?_, ?_, from_seed_index s⟩
  · rw [from_seed_mt_getD s 0 (by omega)]
    rfl
  · rw [from_seed_mt_getD s i (by omega), from_seed_mt_getD s (i - 1) (by omega)]
    obtain ⟨m, rfl⟩ : ∃ m, i = m + 1 := ⟨i - 1, by omega⟩
    have hm : m + 1 - 1 = m := by omega
    rw [hm]
    rfl

theorem seeding_recurrence_witness :
    (32 : ℕ) < 2 ^ 32 ∧ (1 : ℕ) ≤ 1 ∧ (1 : ℕ) ≤ 622 ∧
    ((from_seed 32).mt.getD 0 0 = 32 ∧
     (from_seed 32).mt.getD 1 0 =
       (1812433253 * ((from_seed 32).mt.getD (1 - 1) 0 ^^^
         ((from_seed 32).mt.getD (1 - 1) 0 >>> 30)) + 1) % 2 ^ 32 ∧
     (from_seed 32).index = 624) :=
  ⟨by decide, by decide, by decide,
    seeding_recurrence 32 1 (by decide) (by decide) (by decide)⟩

/-- C7: for every seed and every number of prior calls, the read of
`state[index]` performed by the next `next()` call happens at an index at
most 623, inside the 624-word state array (reaching 624 triggers
regeneration before any read). -/
theorem no_out_of_bounds (s n : ℕ) :
    readIndex (iterate (from_seed s) n) ≤ 623 ∧
    (pre (iterate (from_seed s) n)).mt.length = 624 := by
  constructor
  · have h := pre_index_lt (iterate (from_seed s) n)
    rw [readIndex_eq]
    omega
  · rw [pre_mt_length, iterate_mt_length]

/-- C8: when `next()` is called with `index < 624`, the state array and
both masks are unchanged and `index` is incremented by exactly 1. -/
theorem next_frame (r : Random) (h : r.index < 624) :
    (next r).2.mt = r.mt ∧ (next r).2.lower_mask = r.lower_mask ∧
    (next r).2.upper_mask = r.upper_mask ∧ (next r).2.index = r.index + 1 := by
  refine ⟨?_, (next_snd_masks r).1, (next_snd_masks r).2, ?_⟩
  · rw [next_snd_mt, pre_of_lt r h]
  · rw [next_snd_index, if_neg (by omega)]

theorem next_frame_witness :
    sampleRandom.index < 624 ∧
    ((next sampleRandom).2.mt = sampleRandom.mt ∧
     (next sampleRandom).2.lower_mask = sampleRandom.lower_mask ∧
     (next sampleRandom).2.upper_mask = sampleRandom.upper_mask ∧
     (next sampleRandom).2.index = sampleRandom.index + 1) :=
  ⟨by decide, next_frame sampleRandom (by decide)⟩

/-- C9: for every seed, state word 623 equals 0 after construction
(`n = 0`) and remains 0 after every `next()` call and after every further
twist, because neither the seeding fill loop nor the twist loop writes
index 623. -/
theorem state_last_word_zero (s n : ℕ) :
    (iterate (from_seed s) n).mt.getD 623 0 = 0 ∧
    (twist (iterate (from_seed s) n)).mt.getD 623 0 = 0 := by
  refine ⟨iterate_mt_getD_623 s n, ?_⟩
  rw [twist_mt_getD_623, iterate_mt_getD_623]

/-- C10: for every seed, every 624th call to `next()` (the 624th, 1248th,
1872nd, ...) returns exactly 0: it tempers the never-written state word
623, whose value is 0, and tempering maps 0 to 0. -/
theorem every_624th_output_zero (s k : ℕ) (hk : 1 ≤ k) :
    callOutput s (624 * k) = 0 := by
  have hm : 624 * k - 1 = (624 * k - 2) + 1 := by omega
  have hidx : (iterate (from_seed s) ((624 * k - 2) + 1)).index = 623 := by
    rw [iterate_index]
    have h622 : (624 * k - 2) % 624 = 622 := by omega
    omega
  have hlt : (iterate (from_seed s) ((624 * k - 2) + 1)).index < 624 := by
    omega
  have hmt : (iterate (from_seed s) ((624 * k - 2) + 1)).mt.getD 623 0 = 0 :=
    iterate_mt_getD_623 s _
  rw [callOutput, hm, next_fst, pre_of_lt _ hlt, hidx, hmt, temper_zero]

theorem every_624th_output_zero_witness :
    (1 : ℕ) ≤ 1 ∧ callOutput 32 (624 * 1) = 0 :=
  ⟨by decide, every_624th_output_zero 32 1 (by decide)⟩

end MT
